import Mathlib

/-!
Verification of the index-build coordination core (IndexCoord).

The definitions below are a shallow embedding of the coordinator code:
the RPC handlers (BuildIndex, GetIndexStates, DropIndex, GetIndexFilePaths,
GetMetrics, GetComponentStates), the assignment loop, and the recycle loop
are translated from the source file; the metadata-table operations, whose
implementation is external to the provided sources, are modelled from the
specification (each such definition is marked in its doc comment).
External effects (worker RPC outcomes, CAS failures, blob-store outcomes)
are supplied as explicit environment parameters so the control flow stays
a pure, executable function.
-/

namespace IndexCoordSpec

/-- Error codes of the common status proto used by the coordinator. -/
inductive ErrorCode where
  | Success
  | UnexpectedError
deriving DecidableEq, Repr

/-- The status pair carried by every RPC response. -/
structure Status where
  errorCode : ErrorCode
  reason : String
deriving DecidableEq, Repr

/-- Component state codes. -/
inductive StateCode where
  | Initializing
  | Healthy
  | Abnormal
deriving DecidableEq, Repr

/-- Per-task index states. -/
inductive IndexState where
  | IndexStateNone
  | Unissued
  | InProgress
  | Finished
  | Failed
deriving DecidableEq, Repr

/-- A build request as received by the coordinator. -/
structure BuildIndexRequest where
  indexBuildID : Int
  indexName : String
  indexID : Int
  dataPaths : List String
  typeParams : List (String × String)
  indexParams : List (String × String)
deriving DecidableEq, Repr

/-- A durable task record of the metadata table. -/
structure IndexMeta where
  indexBuildID : Int
  state : IndexState
  req : BuildIndexRequest
  version : Int
  nodeID : Int
  markDeleted : Bool
  recycled : Bool
  indexFilePaths : List String
deriving DecidableEq, Repr

namespace metaTable

/-- Modelled from the spec: the admission fingerprint is the tuple
(IndexID, DataPaths, TypeParams, IndexParams) of a request; identical
requests have equal fingerprints. -/
def sameFingerprint (a b : BuildIndexRequest) : Bool :=
  decide (a.indexID = b.indexID ∧ a.dataPaths = b.dataPaths ∧
    a.typeParams = b.typeParams ∧ a.indexParams = b.indexParams)

/-- Modelled from the spec: HasSameReq scans records for a fingerprint
match; records with MarkDeleted set are ignored.  Returns the matching
IndexBuildID when found. -/
def HasSameReq (table : List IndexMeta) (req : BuildIndexRequest) : Bool × Int :=
  match table.find? (fun m => !m.markDeleted && sameFingerprint m.req req) with
  | some m => (true, m.indexBuildID)
  | none => (false, 0)

/-- The fresh record AddTask persists: State=Unissued, Version=0. -/
def newTaskRecord (req : BuildIndexRequest) (id : Int) : IndexMeta :=
  { indexBuildID := id, state := IndexState.Unissued, req := req, version := 0,
    nodeID := 0, markDeleted := false, recycled := false, indexFilePaths := [] }

/-- Modelled from the spec: AddTask persists a new record with
State=Unissued and Version=0, failing if the id already exists. -/
def AddTask (table : List IndexMeta) (req : BuildIndexRequest) (id : Int) :
    Except String (List IndexMeta) :=
  if table.any (fun m => decide (m.indexBuildID = id)) then
    Except.error "index build id already exists"
  else
    Except.ok (table ++ [newTaskRecord req id])

/-- Modelled from the spec: UpdateVersion bumps the Version of the record
with the given id (the registry CAS outcome is supplied by the caller). -/
def UpdateVersion (table : List IndexMeta) (id : Int) : List IndexMeta :=
  table.map (fun m => if m.indexBuildID = id then { m with version := m.version + 1 } else m)

/-- Modelled from the spec: BuildIndex sets State=InProgress and NodeID on
the record with the given id. -/
def BuildIndex (table : List IndexMeta) (id nodeID : Int) : List IndexMeta :=
  table.map (fun m =>
    if m.indexBuildID = id then { m with state := IndexState.InProgress, nodeID := nodeID } else m)

/-- Modelled from the spec: MarkIndexAsDeleted sets MarkDeleted on all
tasks whose request carries the given IndexID. -/
def MarkIndexAsDeleted (table : List IndexMeta) (indexID : Int) : List IndexMeta :=
  table.map (fun m => if m.req.indexID = indexID then { m with markDeleted := true } else m)

/-- Modelled from the spec: DeleteIndex removes the record with the given
id from the table. -/
def DeleteIndex (table : List IndexMeta) (id : Int) : List IndexMeta :=
  table.filter (fun m => !(decide (m.indexBuildID = id)))

/-- Modelled from the spec: UpdateRecycleState sets Recycled=true on the
record with the given id. -/
def UpdateRecycleState (table : List IndexMeta) (id : Int) : List IndexMeta :=
  table.map (fun m => if m.indexBuildID = id then { m with recycled := true } else m)

/-- Modelled from the spec: the per-id current state; an unknown id yields
IndexStateNone. -/
def stateOf (table : List IndexMeta) (id : Int) : IndexState :=
  match table.find? (fun m => decide (m.indexBuildID = id)) with
  | some m => m.state
  | none => IndexState.IndexStateNone

/-- Modelled from the spec: GetIndexStates returns the current state for
each requested id. -/
def GetIndexStates (table : List IndexMeta) (ids : List Int) : List (Int × IndexState) :=
  ids.map (fun id => (id, stateOf table id))

/-- Modelled from the spec: GetIndexFilePathInfo fails unless the record
exists and has State=Finished; otherwise it returns the blob keys. -/
def GetIndexFilePathInfo (table : List IndexMeta) (id : Int) :
    Except String (Int × List String) :=
  match table.find? (fun m => decide (m.indexBuildID = id)) with
  | none => Except.error ("index build id not exists with ID = " ++ toString id)
  | some m =>
      if m.state = IndexState.Finished then Except.ok (id, m.indexFilePaths)
      else Except.error "index not finished"

/-- Modelled from the spec: GetUnassignedTasks returns records that are
Unissued, or InProgress with a NodeID absent from the live set. -/
def GetUnassignedTasks (table : List IndexMeta) (live : List Int) : List IndexMeta :=
  table.filter (fun m =>
    decide (m.state = IndexState.Unissued) ||
    (decide (m.state = IndexState.InProgress) && !(decide (m.nodeID ∈ live))))

/-- Modelled from the spec: GetUnusedIndexFiles returns up to limit
records that are MarkDeleted, or have Version larger than 1 with
Recycled=false. -/
def GetUnusedIndexFiles (table : List IndexMeta) (limit : Nat) : List IndexMeta :=
  (table.filter (fun m => m.markDeleted || (decide (1 < m.version) && !m.recycled))).take limit

/-- First record of the table carrying the given id, if any. -/
def lookup (table : List IndexMeta) (id : Int) : Option IndexMeta :=
  table.find? (fun m => decide (m.indexBuildID = id))

/-- Version of the record with the given id (0 when absent). -/
def versionOf (table : List IndexMeta) (id : Int) : Int :=
  match lookup table id with
  | some m => m.version
  | none => 0

end metaTable

/-- The coordinator state visible to the embedded handlers. -/
structure IndexCoord where
  stateCode : StateCode
  ID : Int
  sessionServerID : Int
  metaTable : List IndexMeta
deriving DecidableEq, Repr

/-- A freshly constructed coordinator: the constructor only installs the
Abnormal state code (identifiers are zero until Init completes). -/
def NewIndexCoord : IndexCoord :=
  { stateCode := StateCode.Abnormal, ID := 0, sessionServerID := 0, metaTable := [] }

/-- The health check of the coordinator. -/
def isHealthy (c : IndexCoord) : Bool :=
  decide (c.stateCode = StateCode.Healthy)

/-- Modelled from the spec: the human-readable unhealthy reason built from
the coordinator id. -/
def msgIndexCoordIsUnhealthy (id : Int) : String :=
  "index coordinator " ++ toString id ++ " is unhealthy"

/-- Component info of the GetComponentStates response. -/
structure ComponentInfo where
  nodeID : Int
  role : String
  stateCode : StateCode
deriving DecidableEq, Repr

/-- GetComponentStates response. -/
structure ComponentStates where
  componentInfo : ComponentInfo
  status : Status
deriving DecidableEq, Repr

/-- BuildIndex response: a status plus the allocated or deduplicated id. -/
structure BuildIndexResponse where
  status : Status
  indexBuildID : Int
deriving DecidableEq, Repr

/-- GetIndexStates response. -/
structure GetIndexStatesResponse where
  status : Status
  states : List (Int × IndexState)
deriving DecidableEq, Repr

/-- GetIndexFilePaths response. -/
structure GetIndexFilePathsResponse where
  status : Status
  filePaths : List (Int × List String)
deriving DecidableEq, Repr

namespace IndexCoord

/-- GetComponentStates, from the source: always returns a Success status
together with the current state code; there is no health gate. -/
def GetComponentStates (c : IndexCoord) : Except String ComponentStates :=
  Except.ok
    { componentInfo := { nodeID := c.ID, role := "IndexCoord", stateCode := c.stateCode },
      status := { errorCode := ErrorCode.Success, reason := "" } }

/-- BuildIndex, from the source: dedup by fingerprint first (returning the
existing id with a Success status and leaving the table untouched); else
the admission path allocates newID and persists a fresh record.  An
enqueue or wait failure is supplied as admissionErr and is reported inside
the response status; the Go error result is always nil, embedded as an
ok-valued Except. -/
def BuildIndex (c : IndexCoord) (req : BuildIndexRequest) (newID : Int)
    (admissionErr : Option String) : Except String (BuildIndexResponse × IndexCoord) :=
  match metaTable.HasSameReq c.metaTable req with
  | (true, indexBuildID) =>
      Except.ok
        ({ status := { errorCode := ErrorCode.Success, reason := "already have same index" },
           indexBuildID := indexBuildID }, c)
  | (false, _) =>
      match admissionErr with
      | some e =>
          Except.ok
            ({ status := { errorCode := ErrorCode.UnexpectedError, reason := e },
               indexBuildID := 0 }, c)
      | none =>
          match metaTable.AddTask c.metaTable req newID with
          | Except.error e =>
              Except.ok
                ({ status := { errorCode := ErrorCode.UnexpectedError, reason := e },
                   indexBuildID := 0 }, c)
          | Except.ok table1 =>
              Except.ok
                ({ status := { errorCode := ErrorCode.Success, reason := "" },
                   indexBuildID := newID }, { c with metaTable := table1 })

/-- GetIndexStates, from the source: no health gate; per-id states are
returned with a Success status and a nil Go error. -/
def GetIndexStates (c : IndexCoord) (ids : List Int) :
    Except String GetIndexStatesResponse :=
  Except.ok
    { status := { errorCode := ErrorCode.Success, reason := "" },
      states := metaTable.GetIndexStates c.metaTable ids }

/-- DropIndex, from the source: marks all tasks of the index deleted and
returns a Success status (the asynchronous cleanup of still-queued
admissions is outside this embedding). -/
def DropIndex (c : IndexCoord) (indexID : Int) : Except String (Status × IndexCoord) :=
  Except.ok ({ errorCode := ErrorCode.Success, reason := "" },
    { c with metaTable := metaTable.MarkIndexAsDeleted c.metaTable indexID })

/-- GetIndexFilePaths, from the source: for each id the path info is
fetched; on the first failure the handler returns a nil response together
with the error itself (an error-valued Except), not an in-response status. -/
def GetIndexFilePaths (c : IndexCoord) (ids : List Int) :
    Except String GetIndexFilePathsResponse := do
  let infos ← ids.mapM (fun id => metaTable.GetIndexFilePathInfo c.metaTable id)
  return { status := { errorCode := ErrorCode.Success, reason := "" }, filePaths := infos }

end IndexCoord

/-- Base component info of a metrics entry; HasError marks an entry that
stands for a worker whose metrics could not be obtained. -/
structure BaseComponentInfos where
  hasError : Bool
  errorReason : String
  name : String
deriving DecidableEq, Repr

/-- Metrics entry of one worker node. -/
structure IndexNodeInfos where
  base : BaseComponentInfos
deriving DecidableEq, Repr

/-- One worker's reply to the metrics fan-out: the component name, the
status, and the parsed component infos (none models an unmarshal failure). -/
structure NodeMetricsResp where
  status : Status
  response : Option IndexNodeInfos
  componentName : String
deriving DecidableEq, Repr

/-- A fan-out result carries either the response or an error, never both. -/
def NodeMetricsResult : Type := Except String NodeMetricsResp

/-- The cluster topology document of the system-info metrics. -/
structure IndexClusterTopology where
  selfName : String
  connectedNodes : List IndexNodeInfos
deriving DecidableEq, Repr

/-- GetMetrics response; the topology document is carried structurally
(marshalling is outside this embedding). -/
structure GetMetricsResponse where
  status : Status
  response : Option IndexClusterTopology
  componentName : String
deriving DecidableEq, Repr

/-- A metrics request; some mt is a well-formed request asking for metric
type mt, none is an ill-formed request. -/
structure GetMetricsRequest where
  request : Option String
deriving DecidableEq, Repr

/-- Modelled from the spec: the metrics util parses the metric type out of
the request, failing on an ill-formed request. -/
def parseMetricType (req : GetMetricsRequest) : Except String String :=
  match req.request with
  | some mt => Except.ok mt
  | none => Except.error "parse metric type failed"

/-- The only implemented metric type. -/
def systemInfoMetrics : String := "system_info"

/-- Modelled from the spec: the reason reported for unimplemented metric
types. -/
def msgUnimplementedMetric : String := "unimplemented metric"

/-- Modelled from the spec: component names are the role followed by the
node id. -/
def constructComponentName (role : String) (id : Int) : String :=
  role ++ toString id

/-- getSystemInfoMetrics, from the source: the per-worker fan-out results
become topology entries; a transport error, a non-Success status or an
unmarshal failure each become an entry with HasError=true instead of
failing the whole response. -/
def getSystemInfoMetrics (c : IndexCoord) (nodesMetrics : List NodeMetricsResult) :
    GetMetricsResponse :=
  let selfName := constructComponentName "IndexCoord" c.sessionServerID
  let connected : List IndexNodeInfos := nodesMetrics.map (fun r =>
    match r with
    | Except.error e => { base := { hasError := true, errorReason := e, name := "" } }
    | Except.ok resp =>
        if resp.status.errorCode ≠ ErrorCode.Success then
          { base := { hasError := true, errorReason := resp.status.reason,
                      name := resp.componentName } }
        else
          match resp.response with
          | none => { base := { hasError := true,
                                errorReason := "unmarshal component infos failed",
                                name := resp.componentName } }
          | some infos => infos)
  { status := { errorCode := ErrorCode.Success, reason := "" },
    response := some { selfName := selfName, connectedNodes := connected },
    componentName := selfName }

/-- GetMetrics, from the source: the only health-gated client RPC.  When
the coordinator is not Healthy it short-circuits with the unhealthy
reason; otherwise it parses the metric type and serves system_info. -/
def IndexCoord.GetMetrics (c : IndexCoord) (req : GetMetricsRequest)
    (nodesMetrics : List NodeMetricsResult) : Except String GetMetricsResponse :=
  if !(isHealthy c) then
    Except.ok
      { status := { errorCode := ErrorCode.UnexpectedError,
                    reason := msgIndexCoordIsUnhealthy c.ID },
        response := none, componentName := "" }
  else
    match parseMetricType req with
    | Except.error e =>
        Except.ok
          { status := { errorCode := ErrorCode.UnexpectedError, reason := e },
            response := none, componentName := "" }
    | Except.ok mt =>
        if mt = systemInfoMetrics then
          Except.ok (getSystemInfoMetrics c nodesMetrics)
        else
          Except.ok
            { status := { errorCode := ErrorCode.UnexpectedError,
                          reason := msgUnimplementedMetric },
              response := none, componentName := "" }

/-- The per-tick task-processing bound of the assignment and recycle
loops. -/
def taskLimit : Nat := 20

/-- The CreateIndex request sent to a worker. -/
structure CreateIndexRequest where
  indexBuildID : Int
  indexName : String
  indexID : Int
  version : Int
  metaPath : String
  dataPaths : List String
  typeParams : List (String × String)
  indexParams : List (String × String)
deriving DecidableEq, Repr

/-- assignTask, from the source: the CreateIndex RPC outcome is inspected;
a transport error or a non-Success status yields false, success yields
true. -/
def IndexCoord.assignTask (rpcResult : Except String Status) : Bool :=
  match rpcResult with
  | Except.error _ => false
  | Except.ok resp => decide (resp.errorCode = ErrorCode.Success)

/-- The CreateIndex request built by the assignment loop from the cached
record: the Version field is the snapshot version plus one. -/
def mkCreateIndexRequest (m : IndexMeta) : CreateIndexRequest :=
  { indexBuildID := m.indexBuildID, indexName := m.req.indexName, indexID := m.req.indexID,
    version := m.version + 1,
    metaPath := "/indexes/" ++ toString m.indexBuildID,
    dataPaths := m.req.dataPaths, typeParams := m.req.typeParams,
    indexParams := m.req.indexParams }

/-- The environment of one assignment tick: the registry CAS outcome of
UpdateVersion per task id, the PeekClient result per loop iteration, and
the CreateIndex RPC outcome per task id. -/
structure AssignEnv where
  casFail : Int → Bool
  peek : Nat → Option Int
  rpc : Int → Except String Status

/-- What one assignment tick did: the resulting table, the processed task
ids in order, the CreateIndex requests sent in order, the successfully
assigned (id, node) pairs in order, and the node ids whose priority was
incremented in order. -/
structure TickResult where
  table : List IndexMeta
  processed : List Int
  sent : List CreateIndexRequest
  assigned : List (Int × Int)
  priorityInc : List Int
deriving DecidableEq, Repr

/-- The UpdateVersion attempt of one loop iteration: on a CAS failure the
table is unchanged (the failure is only logged); the task id is recorded
as processed either way. -/
def tickProcessed (env : AssignEnv) (acc : TickResult) (id : Int) : TickResult :=
  { acc with
    table := if env.casFail id then acc.table else metaTable.UpdateVersion acc.table id,
    processed := acc.processed ++ [id] }

/-- Recording that a CreateIndex request was sent to the peeked worker. -/
def tickSent (acc : TickResult) (req : CreateIndexRequest) : TickResult :=
  { acc with sent := acc.sent ++ [req] }

/-- Recording a successful assignment: metaTable.BuildIndex is invoked and
the worker's priority is incremented. -/
def tickAssigned (acc : TickResult) (id nodeID : Int) : TickResult :=
  { acc with
    table := metaTable.BuildIndex acc.table id nodeID,
    assigned := acc.assigned ++ [(id, nodeID)],
    priorityInc := acc.priorityInc ++ [nodeID] }

/-- The body of one assignment tick over the sorted task list, from the
source: UpdateVersion is attempted (a CAS failure is only logged and does
not stop the iteration), PeekClient aborts the tick when no worker is
available, a failed CreateIndex RPC skips the task with continue (also
skipping the index bound check), and a success records BuildIndex,
increments the worker priority, and breaks once the iteration index
exceeds taskLimit. -/
def assignLoopGo (env : AssignEnv) : Nat → List IndexMeta → TickResult → TickResult
  | _, [], acc => acc
  | idx, meta :: rest, acc =>
    let acc1 := tickProcessed env acc meta.indexBuildID
    match env.peek idx with
    | none => acc1
    | some nodeID =>
      let acc2 := tickSent acc1 (mkCreateIndexRequest meta)
      if IndexCoord.assignTask (env.rpc meta.indexBuildID) then
        let acc3 := tickAssigned acc2 meta.indexBuildID nodeID
        if idx > taskLimit then acc3 else assignLoopGo env (idx + 1) rest acc3
      else
        assignLoopGo env (idx + 1) rest acc2

/-- Ordered insertion honoring the loop's comparator on Version. -/
def insertByVersion (m : IndexMeta) : List IndexMeta → List IndexMeta
  | [] => [m]
  | x :: xs => if m.version ≤ x.version then m :: x :: xs else x :: insertByVersion m xs

/-- The sort of the unassigned tasks by ascending Version, modelling the
comparator of the source loop. -/
def sortByVersion : List IndexMeta → List IndexMeta
  | [] => []
  | x :: xs => insertByVersion x (sortByVersion xs)

/-- The tick state before any task is processed. -/
def initTick (table : List IndexMeta) : TickResult :=
  { table := table, processed := [], sent := [], assigned := [], priorityInc := [] }

/-- One tick of the assignment loop, from the source: when no worker
client is connected the tick is skipped; otherwise the unassigned tasks
are fetched, sorted by ascending Version, and processed. -/
def assignTaskTick (env : AssignEnv) (hasClients : Bool) (live : List Int)
    (table : List IndexMeta) : TickResult :=
  if hasClients then
    assignLoopGo env 0 (sortByVersion (metaTable.GetUnassignedTasks table live))
      (initTick table)
  else
    initTick table

/-- The environment of one recycle tick: the blob-store RemoveWithPrefix
outcome per key. -/
structure RecycleEnv where
  removeOk : String → Bool

/-- What one recycle tick did: the resulting table, the blob keys whose
removal was issued in order, and those removals that failed (the source
only logs them). -/
structure RecycleResult where
  table : List IndexMeta
  removeCalls : List String
  failedRemoves : List String
deriving DecidableEq, Repr

/-- The stale-version blob keys of a record: one per version j with
1 ≤ j < Version. -/
def staleVersionKeys (m : IndexMeta) : List String :=
  (List.range (m.version - 1).toNat).map
    (fun j => toString m.indexBuildID ++ "/" ++ toString (j + 1))

/-- One step of the recycle loop, from the source: a MarkDeleted record
has the removal of its whole id key issued and is then deleted from the
metadata unconditionally (a blob failure is only logged); otherwise the
stale-version keys are issued for removal and UpdateRecycleState is
called. -/
def recycleStep (env : RecycleEnv) (acc : RecycleResult) (meta : IndexMeta) : RecycleResult :=
  if meta.markDeleted then
    let key := toString meta.indexBuildID
    { table := metaTable.DeleteIndex acc.table meta.indexBuildID,
      removeCalls := acc.removeCalls ++ [key],
      failedRemoves := acc.failedRemoves ++ (if env.removeOk key then [] else [key]) }
  else
    let keys := staleVersionKeys meta
    { table := metaTable.UpdateRecycleState acc.table meta.indexBuildID,
      removeCalls := acc.removeCalls ++ keys,
      failedRemoves := acc.failedRemoves ++ keys.filter (fun k => !(env.removeOk k)) }

/-- One tick of the recycle loop, from the source: at most taskLimit
unused records are fetched and processed in order. -/
def recycleTick (env : RecycleEnv) (table : List IndexMeta) : RecycleResult :=
  (metaTable.GetUnusedIndexFiles table taskLimit).foldl (recycleStep env)
    { table := table, removeCalls := [], failedRemoves := [] }

/-- Whether an embedded Go call returned a nil error. -/
def isOkExcept {α : Type} (r : Except String α) : Bool :=
  match r with
  | Except.ok _ => true
  | Except.error _ => false

/-- A build request with all fields zeroed, used by concrete scenarios. -/
def emptyReq : BuildIndexRequest :=
  { indexBuildID := 0, indexName := "", indexID := 0, dataPaths := [],
    typeParams := [], indexParams := [] }

/-- A fresh Unissued task record with the given id. -/
def mkTask (id : Int) : IndexMeta :=
  { indexBuildID := id, state := IndexState.Unissued, req := emptyReq, version := 0,
    nodeID := 0, markDeleted := false, recycled := false, indexFilePaths := [] }

/-- A concrete build request used by the scenarios. -/
def sampleReq : BuildIndexRequest :=
  { indexBuildID := 0, indexName := "idx", indexID := 7, dataPaths := ["/a", "/b"],
    typeParams := [], indexParams := [] }

/-- A healthy coordinator with an empty table. -/
def healthyCoord : IndexCoord :=
  { stateCode := StateCode.Healthy, ID := 1, sessionServerID := 1, metaTable := [] }

/-- A coordinator still in the Abnormal state. -/
def abnormalCoord : IndexCoord :=
  { stateCode := StateCode.Abnormal, ID := 1, sessionServerID := 1, metaTable := [] }

/-- A healthy coordinator holding one task that is not Finished. -/
def unfinishedCoord : IndexCoord :=
  { stateCode := StateCode.Healthy, ID := 1, sessionServerID := 1, metaTable := [mkTask 3] }

/-- Twenty-three fresh unassigned tasks with ids 1..23. -/
def bigTable : List IndexMeta :=
  (List.range 23).map (fun n => mkTask (Int.ofNat n + 1))

/-- An assignment environment where every registry CAS and every worker
RPC succeeds and worker 1 is always available. -/
def envAllOk : AssignEnv :=
  { casFail := fun _ => false, peek := fun _ => some 1,
    rpc := fun _ => Except.ok { errorCode := ErrorCode.Success, reason := "" } }

/-- An assignment environment where every UpdateVersion CAS fails while
worker 1 is available and every worker RPC succeeds. -/
def envCasFail : AssignEnv :=
  { casFail := fun _ => true, peek := fun _ => some 1,
    rpc := fun _ => Except.ok { errorCode := ErrorCode.Success, reason := "" } }

/-- An assignment environment where every worker RPC fails with a
transport error while worker 1 is available and every CAS succeeds. -/
def envRpcFail : AssignEnv :=
  { casFail := fun _ => false, peek := fun _ => some 1,
    rpc := fun _ => Except.error "network error" }

/-- A recycle environment where every blob-store removal fails. -/
def blobFailEnv : RecycleEnv := { removeOk := fun _ => false }

/-- A record whose index was dropped. -/
def deletedRec : IndexMeta := { mkTask 9 with markDeleted := true }

/-- A Finished record at version 3 with stale versions 1 and 2. -/
def staleRec : IndexMeta :=
  { mkTask 5 with version := 3, state := IndexState.Finished }

/-- The recycle state holding only the stale record, before any step. -/
def staleAcc : RecycleResult :=
  { table := [staleRec], removeCalls := [], failedRemoves := [] }

/-- The coordinator state after the first successful BuildIndex of
sampleReq, which allocated id 100. -/
def dedupCoord : IndexCoord :=
  { stateCode := StateCode.Healthy, ID := 1, sessionServerID := 1,
    metaTable := [metaTable.newTaskRecord sampleReq 100] }

/-!  General helper lemmas shared by the claim theorems. -/

theorem find?_append_none {α : Type} (p : α → Bool) (l1 l2 : List α)
    (h : l1.find? p = none) : (l1 ++ l2).find? p = l2.find? p := by
  induction l1 with
  | nil => rfl
  | cons a t ih =>
    cases hp : p a with
    | true => simp [List.find?, hp] at h
    | false =>
      simp only [List.find?, hp] at h
      simp only [List.cons_append, List.find?, hp]
      exact ih h

theorem sameFingerprint_self (r : BuildIndexRequest) :
    metaTable.sameFingerprint r r = true := by
  simp [metaTable.sameFingerprint]

theorem hasSameReq_false_find (table : List IndexMeta) (req : BuildIndexRequest) (i : Int)
    (h : metaTable.HasSameReq table req = (false, i)) :
    table.find? (fun m => !m.markDeleted && metaTable.sameFingerprint m.req req) = none := by
  unfold metaTable.HasSameReq at h
  cases hf : table.find? (fun m => !m.markDeleted && metaTable.sameFingerprint m.req req) with
  | none => rfl
  | some m => rw [hf] at h; simp at h

theorem buildIndex_state_independent (c : IndexCoord) (req : BuildIndexRequest)
    (newID : Int) (adm : Option String) (code : StateCode) :
    (IndexCoord.BuildIndex { c with stateCode := code } req newID adm).map
        (fun p => (p.1, p.2.metaTable)) =
      (IndexCoord.BuildIndex c req newID adm).map (fun p => (p.1, p.2.metaTable)) := by
  rcases h : metaTable.HasSameReq c.metaTable req with ⟨b, i⟩
  cases b
  · cases adm
    · cases h2 : metaTable.AddTask c.metaTable req newID <;>
        simp [IndexCoord.BuildIndex, h, h2, Except.map]
    · simp [IndexCoord.BuildIndex, h, Except.map]
  · simp [IndexCoord.BuildIndex, h, Except.map]

theorem getMetrics_unhealthy (c : IndexCoord) (req : GetMetricsRequest)
    (nm : List NodeMetricsResult) (h : c.stateCode ≠ StateCode.Healthy) :
    IndexCoord.GetMetrics c req nm =
      Except.ok { status := { errorCode := ErrorCode.UnexpectedError,
                              reason := msgIndexCoordIsUnhealthy c.ID },
                  response := none, componentName := "" } := by
  simp [IndexCoord.GetMetrics, isHealthy, h]

theorem buildIndex_ok (c : IndexCoord) (req : BuildIndexRequest) (newID : Int)
    (adm : Option String) : isOkExcept (IndexCoord.BuildIndex c req newID adm) = true := by
  rcases h : metaTable.HasSameReq c.metaTable req with ⟨b, i⟩
  cases b
  · cases adm
    · cases h2 : metaTable.AddTask c.metaTable req newID <;>
        simp [IndexCoord.BuildIndex, h, h2, isOkExcept]
    · simp [IndexCoord.BuildIndex, h, isOkExcept]
  · simp [IndexCoord.BuildIndex, h, isOkExcept]

theorem getMetrics_ok (c : IndexCoord) (req : GetMetricsRequest)
    (nm : List NodeMetricsResult) :
    isOkExcept (IndexCoord.GetMetrics c req nm) = true := by
  cases hH : isHealthy c
  · simp [IndexCoord.GetMetrics, hH, isOkExcept]
  · cases hp : parseMetricType req with
    | error e => simp [IndexCoord.GetMetrics, hH, hp, isOkExcept]
    | ok mt =>
      by_cases hmt : mt = systemInfoMetrics <;>
        simp [IndexCoord.GetMetrics, hH, hp, hmt, isOkExcept]

theorem getIndexFilePaths_err (c : IndexCoord) (id : Int) (e : String)
    (h : metaTable.GetIndexFilePathInfo c.metaTable id = Except.error e) :
    IndexCoord.GetIndexFilePaths c [id] = Except.error e := by
  simp [IndexCoord.GetIndexFilePaths, List.mapM, List.mapM.loop, h]

/-!  Claim theorems. -/

/-- C1: two BuildIndex calls whose requests carry the identical
fingerprint, with no intervening DropIndex, both succeed and return the
same IndexBuildID: when the table already holds a non-MarkDeleted record
matching the request, BuildIndex returns that record's IndexBuildID with a
Success status and leaves the table unchanged (no new task). -/
theorem C1_buildIndex_idempotent_by_fingerprint (c c1 : IndexCoord)
    (req : BuildIndexRequest) (newID newID2 : Int) (adm2 : Option String)
    (r1 : BuildIndexResponse)
    (h1 : IndexCoord.BuildIndex c req newID none = Except.ok (r1, c1))
    (hs : r1.status.errorCode = ErrorCode.Success) :
    IndexCoord.BuildIndex c1 req newID2 adm2 =
      Except.ok ({ status := { errorCode := ErrorCode.Success,
                               reason := "already have same index" },
                   indexBuildID := r1.indexBuildID }, c1) := by
  rcases hh : metaTable.HasSameReq c.metaTable req with ⟨b, i⟩
  cases b
  · cases h2 : metaTable.AddTask c.metaTable req newID with
    | error e =>
      simp [IndexCoord.BuildIndex, hh, h2] at h1
      rw [← h1.1] at hs
      simp at hs
    | ok table1 =>
      simp [IndexCoord.BuildIndex, hh, h2] at h1
      unfold metaTable.AddTask at h2
      split at h2
      · exact absurd h2 (by simp)
      · have htab : table1 = c.metaTable ++ [metaTable.newTaskRecord req newID] := by
          injection h2 with h3
          exact h3.symm
        have hfind := hasSameReq_false_find c.metaTable req i hh
        have hc1meta : c1.metaTable = table1 := by rw [← h1.2]
        have hnew : metaTable.HasSameReq c1.metaTable req = (true, newID) := by
          rw [hc1meta, htab]
          unfold metaTable.HasSameReq
          rw [find?_append_none _ _ _ hfind]
          simp [List.find?, sameFingerprint_self, metaTable.newTaskRecord]
        simp [IndexCoord.BuildIndex, hnew, ← h1.1]
  · simp [IndexCoord.BuildIndex, hh] at h1
    have hc1 : c1 = c := h1.2.symm
    subst hc1
    simp [IndexCoord.BuildIndex, hh, ← h1.1]

/-- Witness for C1: concretely, the first BuildIndex of sampleReq on an
empty healthy coordinator allocates id 100, and the second call with the
identical request returns id 100 with a Success status and an unchanged
table. -/
theorem C1_witness :
    IndexCoord.BuildIndex healthyCoord sampleReq 100 none =
      Except.ok ({ status := { errorCode := ErrorCode.Success, reason := "" },
                   indexBuildID := 100 }, dedupCoord) ∧
    IndexCoord.BuildIndex dedupCoord sampleReq 200 (some "enqueue timeout") =
      Except.ok ({ status := { errorCode := ErrorCode.Success,
                               reason := "already have same index" },
                   indexBuildID := 100 }, dedupCoord) :=
  ⟨rfl, C1_buildIndex_idempotent_by_fingerprint healthyCoord dedupCoord sampleReq 100 200
    (some "enqueue timeout")
    { status := { errorCode := ErrorCode.Success, reason := "" }, indexBuildID := 100 }
    rfl rfl⟩

/-- Counterexample for C2: a coordinator whose state code is Abnormal
still serves GetIndexStates with a Success status instead of
short-circuiting with an unhealthy reason. -/
theorem C2_counterexample :
    abnormalCoord.stateCode ≠ StateCode.Healthy ∧
    IndexCoord.GetIndexStates abnormalCoord [5] =
      Except.ok { status := { errorCode := ErrorCode.Success, reason := "" },
                  states := [(5, IndexState.IndexStateNone)] } := ⟨by decide, rfl⟩

/-- C2 (amended): of the client RPCs only GetMetrics is health-gated: on a
non-Healthy state it short-circuits with the unhealthy reason, while
BuildIndex, GetIndexStates, GetIndexFilePaths and DropIndex do not consult
the state code and behave identically regardless of health. -/
theorem C2_only_getMetrics_health_gated (c : IndexCoord)
    (h : c.stateCode ≠ StateCode.Healthy) :
    (∀ req nm, IndexCoord.GetMetrics c req nm =
      Except.ok { status := { errorCode := ErrorCode.UnexpectedError,
                              reason := msgIndexCoordIsUnhealthy c.ID },
                  response := none, componentName := "" }) ∧
    (∀ ids, IndexCoord.GetIndexStates c ids =
      IndexCoord.GetIndexStates { c with stateCode := StateCode.Healthy } ids) ∧
    (∀ req newID adm,
      (IndexCoord.BuildIndex c req newID adm).map (fun p => (p.1, p.2.metaTable)) =
      (IndexCoord.BuildIndex { c with stateCode := StateCode.Healthy } req newID adm).map
        (fun p => (p.1, p.2.metaTable))) ∧
    (∀ indexID,
      (IndexCoord.DropIndex c indexID).map (fun p => (p.1, p.2.metaTable)) =
      (IndexCoord.DropIndex { c with stateCode := StateCode.Healthy } indexID).map
        (fun p => (p.1, p.2.metaTable))) ∧
    (∀ ids, IndexCoord.GetIndexFilePaths c ids =
      IndexCoord.GetIndexFilePaths { c with stateCode := StateCode.Healthy } ids) :=
  ⟨fun req nm => getMetrics_unhealthy c req nm h, fun _ => rfl,
    fun req newID adm =>
      (buildIndex_state_independent c req newID adm StateCode.Healthy).symm,
    fun _ => rfl, fun _ => rfl⟩

/-- Witness for C2 (amended): the Abnormal coordinator rejects a concrete
GetMetrics request with the unhealthy reason. -/
theorem C2_witness :
    IndexCoord.GetMetrics abnormalCoord { request := some systemInfoMetrics } [] =
      Except.ok { status := { errorCode := ErrorCode.UnexpectedError,
                              reason := msgIndexCoordIsUnhealthy abnormalCoord.ID },
                  response := none, componentName := "" } :=
  (C2_only_getMetrics_health_gated abnormalCoord (by decide)).1
    { request := some systemInfoMetrics } []

/-- Counterexample for C7: GetIndexFilePaths on a not-Finished id returns
a Go-level error (and no response) rather than a response carrying the
failure status. -/
theorem C7_counterexample :
    IndexCoord.GetIndexFilePaths unfinishedCoord [3] =
      Except.error "index not finished" := rfl

/-- C7 (amended): BuildIndex, GetIndexStates, DropIndex and GetMetrics
report business failures inside the returned response status with a nil
Go-level error; GetIndexFilePaths is the exception: on an unknown or
not-Finished id it returns the error itself instead of a response. -/
theorem C7_business_failures_in_status_except_file_paths (c : IndexCoord)
    (id : Int) (e : String)
    (h : metaTable.GetIndexFilePathInfo c.metaTable id = Except.error e) :
    IndexCoord.GetIndexFilePaths c [id] = Except.error e ∧
    (∀ req newID adm, isOkExcept (IndexCoord.BuildIndex c req newID adm) = true) ∧
    (∀ ids, isOkExcept (IndexCoord.GetIndexStates c ids) = true) ∧
    (∀ indexID, isOkExcept (IndexCoord.DropIndex c indexID) = true) ∧
    (∀ req nm, isOkExcept (IndexCoord.GetMetrics c req nm) = true) :=
  ⟨getIndexFilePaths_err c id e h, fun req newID adm => buildIndex_ok c req newID adm,
    fun _ => rfl, fun _ => rfl, fun req nm => getMetrics_ok c req nm⟩

/-- Witness for C7 (amended): on the concrete coordinator holding one
Unissued task, GetIndexFilePaths surfaces the Go-level error while
BuildIndex still returns a nil error. -/
theorem C7_witness :
    IndexCoord.GetIndexFilePaths unfinishedCoord [3] =
      Except.error "index not finished" ∧
    isOkExcept (IndexCoord.BuildIndex unfinishedCoord sampleReq 100 none) = true :=
  ⟨(C7_business_failures_in_status_except_file_paths unfinishedCoord 3
      "index not finished" rfl).1,
   (C7_business_failures_in_status_except_file_paths unfinishedCoord 3
      "index not finished" rfl).2.1 sampleReq 100 none⟩

/-- C10: for every coordinator state code, including the Abnormal state a
newly constructed coordinator starts in, GetComponentStates returns a
Success status and reports the current state code; the call is never
health-gated. -/
theorem C10_getComponentStates_always_succeeds (c : IndexCoord) :
    IndexCoord.GetComponentStates c =
      Except.ok { componentInfo := { nodeID := c.ID, role := "IndexCoord",
                                     stateCode := c.stateCode },
                  status := { errorCode := ErrorCode.Success, reason := "" } } ∧
    NewIndexCoord.stateCode = StateCode.Abnormal := ⟨rfl, rfl⟩

/-!  Helper lemmas for the assignment loop. -/

@[simp] theorem tickProcessed_assigned (env : AssignEnv) (acc : TickResult) (id : Int) :
    (tickProcessed env acc id).assigned = acc.assigned := rfl

@[simp] theorem tickSent_assigned (acc : TickResult) (req : CreateIndexRequest) :
    (tickSent acc req).assigned = acc.assigned := rfl

@[simp] theorem tickAssigned_assigned (acc : TickResult) (id n : Int) :
    (tickAssigned acc id n).assigned = acc.assigned ++ [(id, n)] := rfl

@[simp] theorem tickProcessed_priorityInc (env : AssignEnv) (acc : TickResult) (id : Int) :
    (tickProcessed env acc id).priorityInc = acc.priorityInc := rfl

@[simp] theorem tickSent_priorityInc (acc : TickResult) (req : CreateIndexRequest) :
    (tickSent acc req).priorityInc = acc.priorityInc := rfl

@[simp] theorem tickAssigned_priorityInc (acc : TickResult) (id n : Int) :
    (tickAssigned acc id n).priorityInc = acc.priorityInc ++ [n] := rfl

@[simp] theorem tickProcessed_sent (env : AssignEnv) (acc : TickResult) (id : Int) :
    (tickProcessed env acc id).sent = acc.sent := rfl

@[simp] theorem tickSent_sent (acc : TickResult) (req : CreateIndexRequest) :
    (tickSent acc req).sent = acc.sent ++ [req] := rfl

@[simp] theorem tickAssigned_sent (acc : TickResult) (id n : Int) :
    (tickAssigned acc id n).sent = acc.sent := rfl

@[simp] theorem tickProcessed_table (env : AssignEnv) (acc : TickResult) (id : Int) :
    (tickProcessed env acc id).table =
      if env.casFail id then acc.table else metaTable.UpdateVersion acc.table id := rfl

@[simp] theorem tickSent_table (acc : TickResult) (req : CreateIndexRequest) :
    (tickSent acc req).table = acc.table := rfl

@[simp] theorem tickAssigned_table (acc : TickResult) (id n : Int) :
    (tickAssigned acc id n).table = metaTable.BuildIndex acc.table id n := rfl

theorem assignLoopGo_assigned_spec (env : AssignEnv) :
    ∀ (metas : List IndexMeta) (idx : Nat) (acc : TickResult) (p : Int × Int),
    p ∈ (assignLoopGo env idx metas acc).assigned →
    p ∈ acc.assigned ∨ IndexCoord.assignTask (env.rpc p.1) = true := by
  intro metas
  induction metas with
  | nil => intro idx acc p hp; exact Or.inl hp
  | cons meta rest ih =>
    intro idx acc p hp
    simp only [assignLoopGo] at hp
    cases hpk : env.peek idx with
    | none =>
      rw [hpk] at hp
      exact Or.inl hp
    | some nodeID =>
      rw [hpk] at hp
      cases hrpc : IndexCoord.assignTask (env.rpc meta.indexBuildID) with
      | false =>
        simp only [hrpc, Bool.false_eq_true, if_false] at hp
        rcases ih (idx + 1) _ p hp with h | h
        · exact Or.inl (by simpa using h)
        · exact Or.inr h
      | true =>
        simp only [hrpc, if_true] at hp
        by_cases hidx : idx > taskLimit
        · rw [if_pos hidx] at hp
          simp only [tickAssigned_assigned, tickSent_assigned, tickProcessed_assigned] at hp
          rcases List.mem_append.mp hp with h | h
          · exact Or.inl h
          · simp at h
            subst h
            exact Or.inr hrpc
        · rw [if_neg hidx] at hp
          rcases ih (idx + 1) _ p hp with h | h
          · simp only [tickAssigned_assigned, tickSent_assigned, tickProcessed_assigned] at h
            rcases List.mem_append.mp h with h2 | h2
            · exact Or.inl h2
            · simp at h2
              subst h2
              exact Or.inr hrpc
          · exact Or.inr h

theorem assignLoopGo_priority_sync (env : AssignEnv) :
    ∀ (metas : List IndexMeta) (idx : Nat) (acc : TickResult),
    acc.priorityInc = acc.assigned.map Prod.snd →
    (assignLoopGo env idx metas acc).priorityInc =
      (assignLoopGo env idx metas acc).assigned.map Prod.snd := by
  intro metas
  induction metas with
  | nil => intro idx acc h; exact h
  | cons meta rest ih =>
    intro idx acc h
    simp only [assignLoopGo]
    cases hpk : env.peek idx with
    | none => exact h
    | some nodeID =>
      cases hrpc : IndexCoord.assignTask (env.rpc meta.indexBuildID) with
      | false =>
        simp only [hrpc, Bool.false_eq_true, if_false]
        exact ih (idx + 1) _ (by simpa using h)
      | true =>
        simp only [hrpc, if_true]
        by_cases hidx : idx > taskLimit
        · rw [if_pos hidx]
          simp [h]
        · rw [if_neg hidx]
          exact ih (idx + 1) _ (by simp [h])

theorem assignLoopGo_assigned_append (env : AssignEnv) :
    ∀ (metas : List IndexMeta) (idx : Nat) (acc : TickResult),
    ∃ l, (assignLoopGo env idx metas acc).assigned = acc.assigned ++ l := by
  intro metas
  induction metas with
  | nil => intro idx acc; exact ⟨[], by simp [assignLoopGo]⟩
  | cons meta rest ih =>
    intro idx acc
    simp only [assignLoopGo]
    cases hpk : env.peek idx with
    | none => exact ⟨[], by simp⟩
    | some nodeID =>
      cases hrpc : IndexCoord.assignTask (env.rpc meta.indexBuildID) with
      | false =>
        simp only [hrpc, Bool.false_eq_true, if_false]
        obtain ⟨l, hl⟩ := ih (idx + 1)
          (tickSent (tickProcessed env acc meta.indexBuildID) (mkCreateIndexRequest meta))
        exact ⟨l, by simpa using hl⟩
      | true =>
        simp only [hrpc, if_true]
        by_cases hidx : idx > taskLimit
        · rw [if_pos hidx]
          exact ⟨[(meta.indexBuildID, nodeID)], by simp⟩
        · rw [if_neg hidx]
          obtain ⟨l, hl⟩ := ih (idx + 1)
            (tickAssigned (tickSent (tickProcessed env acc meta.indexBuildID)
              (mkCreateIndexRequest meta)) meta.indexBuildID nodeID)
          refine ⟨(meta.indexBuildID, nodeID) :: l, ?_⟩
          rw [hl]
          simp

theorem assignLoopGo_assigned_bound (env : AssignEnv) :
    ∀ (metas : List IndexMeta) (idx : Nat) (acc : TickResult),
    (assignLoopGo env idx metas acc).assigned.length ≤
      acc.assigned.length + (22 - min idx 21) := by
  intro metas
  induction metas with
  | nil => intro idx acc; simp [assignLoopGo]
  | cons meta rest ih =>
    intro idx acc
    simp only [assignLoopGo]
    cases hpk : env.peek idx with
    | none => simp
    | some nodeID =>
      cases hrpc : IndexCoord.assignTask (env.rpc meta.indexBuildID) with
      | false =>
        simp only [hrpc, Bool.false_eq_true, if_false]
        have h2 := ih (idx + 1)
          (tickSent (tickProcessed env acc meta.indexBuildID) (mkCreateIndexRequest meta))
        simp only [tickSent_assigned, tickProcessed_assigned] at h2
        omega
      | true =>
        simp only [hrpc, if_true]
        by_cases hidx : idx > taskLimit
        · rw [if_pos hidx]
          simp only [tickAssigned_assigned, tickSent_assigned, tickProcessed_assigned,
            List.length_append, List.length_cons, List.length_nil]
          have ht : taskLimit = 20 := rfl
          omega
        · rw [if_neg hidx]
          have h2 := ih (idx + 1)
            (tickAssigned (tickSent (tickProcessed env acc meta.indexBuildID)
              (mkCreateIndexRequest meta)) meta.indexBuildID nodeID)
          simp only [tickAssigned_assigned, tickSent_assigned, tickProcessed_assigned,
            List.length_append, List.length_cons, List.length_nil] at h2
          have ht : taskLimit = 20 := rfl
          omega

theorem versionOf_map_mono (g : IndexMeta → IndexMeta)
    (hid : ∀ m, (g m).indexBuildID = m.indexBuildID)
    (hv : ∀ m, m.version ≤ (g m).version) (id : Int) :
    ∀ t : List IndexMeta, metaTable.versionOf t id ≤ metaTable.versionOf (t.map g) id := by
  intro t
  induction t with
  | nil => simp [metaTable.versionOf, metaTable.lookup]
  | cons a t ih =>
    by_cases h : a.indexBuildID = id
    · simp [metaTable.versionOf, metaTable.lookup, List.find?, h, hid a, hv a]
    · simpa [metaTable.versionOf, metaTable.lookup, List.find?, h, hid a] using ih

theorem stateOf_map_eq (g : IndexMeta → IndexMeta) (id : Int)
    (hid : ∀ m, (g m).indexBuildID = m.indexBuildID)
    (hs : ∀ m, m.indexBuildID = id → (g m).state = m.state) :
    ∀ t : List IndexMeta, metaTable.stateOf (t.map g) id = metaTable.stateOf t id := by
  intro t
  induction t with
  | nil => simp [metaTable.stateOf]
  | cons a t ih =>
    by_cases h : a.indexBuildID = id
    · simp [metaTable.stateOf, List.find?, h, hid a, hs a h]
    · simpa [metaTable.stateOf, List.find?, h, hid a] using ih

theorem versionOf_updateVersion_mono (t : List IndexMeta) (uid id : Int) :
    metaTable.versionOf t id ≤ metaTable.versionOf (metaTable.UpdateVersion t uid) id := by
  refine versionOf_map_mono _ ?_ ?_ id t
  · intro m; by_cases h : m.indexBuildID = uid <;> simp [h]
  · intro m; by_cases h : m.indexBuildID = uid <;> simp [h]

theorem versionOf_buildIndex_mono (t : List IndexMeta) (uid n id : Int) :
    metaTable.versionOf t id ≤ metaTable.versionOf (metaTable.BuildIndex t uid n) id := by
  refine versionOf_map_mono _ ?_ ?_ id t
  · intro m; by_cases h : m.indexBuildID = uid <;> simp [h]
  · intro m; by_cases h : m.indexBuildID = uid <;> simp [h]

theorem stateOf_updateVersion_eq (t : List IndexMeta) (uid id : Int) :
    metaTable.stateOf (metaTable.UpdateVersion t uid) id = metaTable.stateOf t id := by
  refine stateOf_map_eq _ id ?_ ?_ t
  · intro m; by_cases h : m.indexBuildID = uid <;> simp [h]
  · intro m _; by_cases h : m.indexBuildID = uid <;> simp [h]

theorem stateOf_buildIndex_ne (t : List IndexMeta) (uid n id : Int) (hne : uid ≠ id) :
    metaTable.stateOf (metaTable.BuildIndex t uid n) id = metaTable.stateOf t id := by
  refine stateOf_map_eq _ id ?_ ?_ t
  · intro m; by_cases h : m.indexBuildID = uid <;> simp [h]
  · intro m hm
    by_cases h : m.indexBuildID = uid
    · exact absurd (h ▸ hm) hne
    · simp [h]

theorem assignLoopGo_version_mono (env : AssignEnv) (id : Int) :
    ∀ (metas : List IndexMeta) (idx : Nat) (acc : TickResult),
    metaTable.versionOf acc.table id ≤
      metaTable.versionOf (assignLoopGo env idx metas acc).table id := by
  intro metas
  induction metas with
  | nil => intro idx acc; simp [assignLoopGo]
  | cons meta rest ih =>
    intro idx acc
    have hstep : metaTable.versionOf acc.table id ≤
        metaTable.versionOf (tickProcessed env acc meta.indexBuildID).table id := by
      simp only [tickProcessed_table]
      by_cases hc : env.casFail meta.indexBuildID <;> simp [hc, versionOf_updateVersion_mono]
    simp only [assignLoopGo]
    cases hpk : env.peek idx with
    | none => exact hstep
    | some nodeID =>
      cases hrpc : IndexCoord.assignTask (env.rpc meta.indexBuildID) with
      | false =>
        simp only [hrpc, Bool.false_eq_true, if_false]
        exact le_trans hstep (by simpa using ih (idx + 1) _)
      | true =>
        simp only [hrpc, if_true]
        have hstep2 : metaTable.versionOf acc.table id ≤
            metaTable.versionOf (tickAssigned (tickSent (tickProcessed env acc
              meta.indexBuildID) (mkCreateIndexRequest meta)) meta.indexBuildID
              nodeID).table id := by
          simp only [tickAssigned_table, tickSent_table]
          exact le_trans hstep (versionOf_buildIndex_mono _ _ _ _)
        by_cases hidx : idx > taskLimit
        · rw [if_pos hidx]
          exact hstep2
        · rw [if_neg hidx]
          exact le_trans hstep2 (ih (idx + 1) _)

theorem assignLoopGo_state_preserved (env : AssignEnv) (id : Int)
    (hfail : IndexCoord.assignTask (env.rpc id) = false) :
    ∀ (metas : List IndexMeta) (idx : Nat) (acc : TickResult),
    metaTable.stateOf (assignLoopGo env idx metas acc).table id =
      metaTable.stateOf acc.table id := by
  intro metas
  induction metas with
  | nil => intro idx acc; simp [assignLoopGo]
  | cons meta rest ih =>
    intro idx acc
    have hstep : metaTable.stateOf (tickProcessed env acc meta.indexBuildID).table id =
        metaTable.stateOf acc.table id := by
      simp only [tickProcessed_table]
      by_cases hc : env.casFail meta.indexBuildID <;> simp [hc, stateOf_updateVersion_eq]
    simp only [assignLoopGo]
    cases hpk : env.peek idx with
    | none => exact hstep
    | some nodeID =>
      cases hrpc : IndexCoord.assignTask (env.rpc meta.indexBuildID) with
      | false =>
        simp only [hrpc, Bool.false_eq_true, if_false]
        rw [ih (idx + 1) _]
        simp only [tickSent_table]
        exact hstep
      | true =>
        have hne : meta.indexBuildID ≠ id := by
          intro he
          rw [he] at hrpc
          rw [hrpc] at hfail
          exact absurd hfail (by simp)
        simp only [hrpc, if_true]
        have hstep2 : metaTable.stateOf (tickAssigned (tickSent (tickProcessed env acc
            meta.indexBuildID) (mkCreateIndexRequest meta)) meta.indexBuildID
            nodeID).table id = metaTable.stateOf acc.table id := by
          simp only [tickAssigned_table, tickSent_table]
          rw [stateOf_buildIndex_ne _ _ _ _ hne]
          exact hstep
        by_cases hidx : idx > taskLimit
        · rw [if_pos hidx]
          exact hstep2
        · rw [if_neg hidx]
          rw [ih (idx + 1) _]
          exact hstep2

theorem assignLoopGo_sent_sublist (env : AssignEnv) :
    ∀ (metas : List IndexMeta) (idx : Nat) (acc : TickResult),
    ∃ l : List IndexMeta, l.Sublist metas ∧
      (assignLoopGo env idx metas acc).sent = acc.sent ++ l.map mkCreateIndexRequest := by
  intro metas
  induction metas with
  | nil => intro idx acc; exact ⟨[], List.Sublist.refl [], by simp [assignLoopGo]⟩
  | cons meta rest ih =>
    intro idx acc
    simp only [assignLoopGo]
    cases hpk : env.peek idx with
    | none => exact ⟨[], List.nil_sublist _, by simp⟩
    | some nodeID =>
      cases hrpc : IndexCoord.assignTask (env.rpc meta.indexBuildID) with
      | false =>
        simp only [hrpc, Bool.false_eq_true, if_false]
        obtain ⟨l, hsub, hsent⟩ := ih (idx + 1)
          (tickSent (tickProcessed env acc meta.indexBuildID) (mkCreateIndexRequest meta))
        refine ⟨meta :: l, List.Sublist.cons₂ meta hsub, ?_⟩
        rw [hsent]
        simp
      | true =>
        simp only [hrpc, if_true]
        by_cases hidx : idx > taskLimit
        · rw [if_pos hidx]
          exact ⟨[meta], List.Sublist.cons₂ meta (List.nil_sublist rest), by simp⟩
        · rw [if_neg hidx]
          obtain ⟨l, hsub, hsent⟩ := ih (idx + 1)
            (tickAssigned (tickSent (tickProcessed env acc meta.indexBuildID)
              (mkCreateIndexRequest meta)) meta.indexBuildID nodeID)
          refine ⟨meta :: l, List.Sublist.cons₂ meta hsub, ?_⟩
          rw [hsent]
          simp

theorem mem_insertByVersion (m b : IndexMeta) :
    ∀ l : List IndexMeta, b ∈ insertByVersion m l ↔ b = m ∨ b ∈ l := by
  intro l
  induction l with
  | nil => simp [insertByVersion]
  | cons x xs ih =>
    simp only [insertByVersion]
    by_cases h : m.version ≤ x.version
    · simp [h]
    · rw [if_neg h]
      simp only [List.mem_cons, ih]
      tauto

theorem pairwise_insertByVersion (m : IndexMeta) :
    ∀ l : List IndexMeta, l.Pairwise (fun a b => a.version ≤ b.version) →
    (insertByVersion m l).Pairwise (fun a b => a.version ≤ b.version) := by
  intro l
  induction l with
  | nil => intro _; simp [insertByVersion]
  | cons x xs ih =>
    intro h
    rw [List.pairwise_cons] at h
    simp only [insertByVersion]
    by_cases hle : m.version ≤ x.version
    · rw [if_pos hle]
      rw [List.pairwise_cons]
      constructor
      · intro b hb
        rcases List.mem_cons.mp hb with h2 | h2
        · rw [h2]; exact hle
        · exact le_trans hle (h.1 b h2)
      · rw [List.pairwise_cons]
        exact h
    · rw [if_neg hle]
      rw [List.pairwise_cons]
      constructor
      · intro b hb
        rcases (mem_insertByVersion m b xs).mp hb with h2 | h2
        · rw [h2]
          exact le_of_lt (lt_of_not_le hle)
        · exact h.1 b h2
      · exact ih h.2

theorem pairwise_sortByVersion :
    ∀ l : List IndexMeta, (sortByVersion l).Pairwise (fun a b => a.version ≤ b.version) := by
  intro l
  induction l with
  | nil => simp [sortByVersion]
  | cons x xs ih => exact pairwise_insertByVersion x _ ih

/-- C3: a task whose CreateIndex RPC fails (transport error or non-Success
status) is skipped for the tick: it is never recorded as assigned, the
priority increments stay in lockstep with the successful assignments, its
Version is never decremented and its State is unchanged, so it is retried
on a later tick. -/
theorem C3_rpc_failure_skips_task (env : AssignEnv) (hasClients : Bool)
    (live : List Int) (table : List IndexMeta) (id : Int)
    (hfail : IndexCoord.assignTask (env.rpc id) = false) :
    (∀ n, (id, n) ∉ (assignTaskTick env hasClients live table).assigned) ∧
    (assignTaskTick env hasClients live table).priorityInc =
      (assignTaskTick env hasClients live table).assigned.map Prod.snd ∧
    metaTable.versionOf table id ≤
      metaTable.versionOf (assignTaskTick env hasClients live table).table id ∧
    metaTable.stateOf (assignTaskTick env hasClients live table).table id =
      metaTable.stateOf table id := by
  unfold assignTaskTick
  by_cases hc : hasClients
  · rw [if_pos hc]
    refine ⟨?_, ?_, ?_, ?_⟩
    · intro n hmem
      rcases assignLoopGo_assigned_spec env _ 0 (initTick table) (id, n) hmem with h | h
      · simp [initTick] at h
      · exact absurd h (by simp [hfail])
    · exact assignLoopGo_priority_sync env _ 0 (initTick table) rfl
    · exact assignLoopGo_version_mono env id _ 0 (initTick table)
    · exact assignLoopGo_state_preserved env id hfail _ 0 (initTick table)
  · rw [if_neg hc]
    exact ⟨by simp [initTick], rfl, le_refl _, rfl⟩

/-- Witness for C3: with one unassigned task 7 and a transport-failing
worker RPC, the tick assigns nothing, increments no priority, and leaves
version and state of task 7 unchanged for a later retry. -/
theorem C3_witness :
    (∀ n, (7, n) ∉ (assignTaskTick envRpcFail true [1] [mkTask 7]).assigned) ∧
    (assignTaskTick envRpcFail true [1] [mkTask 7]).priorityInc =
      (assignTaskTick envRpcFail true [1] [mkTask 7]).assigned.map Prod.snd ∧
    metaTable.versionOf [mkTask 7] 7 ≤
      metaTable.versionOf (assignTaskTick envRpcFail true [1] [mkTask 7]).table 7 ∧
    metaTable.stateOf (assignTaskTick envRpcFail true [1] [mkTask 7]).table 7 =
      metaTable.stateOf [mkTask 7] 7 :=
  C3_rpc_failure_skips_task envRpcFail true [1] [mkTask 7] 7 rfl

/-- Counterexample for C5: with 23 unassigned tasks and every RPC
succeeding, one tick processes and assigns 22 tasks, exceeding the claimed
bound of taskLimit (20). -/
theorem C5_counterexample :
    taskLimit < (assignTaskTick envAllOk true [1] bigTable).processed.length ∧
    (assignTaskTick envAllOk true [1] bigTable).processed.length = 22 ∧
    (assignTaskTick envAllOk true [1] bigTable).assigned.length = 22 ∧
    bigTable.length = 23 := by
  refine ⟨?_, ?_, ?_, ?_⟩ <;> decide

/-- C5 (amended): on every tick at most taskLimit + 2 (22) tasks are
successfully assigned, because the post-assignment index check only runs
after a successful dispatch (and is skipped by the continue of a failed
RPC, which does not bound the number of version-bumped tasks). -/
theorem C5_at_most_22_assigned_per_tick (env : AssignEnv) (hasClients : Bool)
    (live : List Int) (table : List IndexMeta) :
    (assignTaskTick env hasClients live table).assigned.length ≤ taskLimit + 2 := by
  unfold assignTaskTick
  by_cases hc : hasClients
  · rw [if_pos hc]
    have h := assignLoopGo_assigned_bound env
      (sortByVersion (metaTable.GetUnassignedTasks table live)) 0 (initTick table)
    have h0 : (initTick table).assigned.length = 0 := rfl
    have ht : taskLimit = 20 := rfl
    omega
  · rw [if_neg hc]
    simp [initTick]

/-- Counterexample for C6: every UpdateVersion CAS fails, yet task 7 is
still dispatched to worker 1 in the same tick instead of being deferred. -/
theorem C6_counterexample :
    envCasFail.casFail 7 = true ∧
    (assignTaskTick envCasFail true [1] [mkTask 7]).assigned = [(7, 1)] := ⟨rfl, rfl⟩

/-- C6 (amended): when UpdateVersion fails (CAS conflict) the conflict is
only logged and the loop still dispatches the task to the peeked worker in
the same tick: the CreateIndex request is sent and, the RPC succeeding,
the task is recorded as assigned. -/
theorem C6_cas_failure_still_dispatches (env : AssignEnv) (meta : IndexMeta)
    (rest : List IndexMeta) (idx : Nat) (acc : TickResult) (n : Int)
    (_hcas : env.casFail meta.indexBuildID = true)
    (hpeek : env.peek idx = some n)
    (hrpc : IndexCoord.assignTask (env.rpc meta.indexBuildID) = true) :
    ∃ l l', (assignLoopGo env idx (meta :: rest) acc).assigned =
        acc.assigned ++ (meta.indexBuildID, n) :: l ∧
      (assignLoopGo env idx (meta :: rest) acc).sent =
        acc.sent ++ mkCreateIndexRequest meta :: l' := by
  simp only [assignLoopGo, hpeek, hrpc, if_true]
  by_cases hidx : idx > taskLimit
  · rw [if_pos hidx]
    exact ⟨[], [], by simp, by simp⟩
  · rw [if_neg hidx]
    obtain ⟨l, hl⟩ := assignLoopGo_assigned_append env rest (idx + 1)
      (tickAssigned (tickSent (tickProcessed env acc meta.indexBuildID)
        (mkCreateIndexRequest meta)) meta.indexBuildID n)
    obtain ⟨l2, _, hsent⟩ := assignLoopGo_sent_sublist env rest (idx + 1)
      (tickAssigned (tickSent (tickProcessed env acc meta.indexBuildID)
        (mkCreateIndexRequest meta)) meta.indexBuildID n)
    refine ⟨l, l2.map mkCreateIndexRequest, ?_, ?_⟩
    · rw [hl]; simp
    · rw [hsent]; simp

/-- Witness for C6 (amended): with a failing CAS on task 7 and a
successful RPC, the first loop iteration dispatches task 7 to worker 1. -/
theorem C6_witness :
    ∃ l l', (assignLoopGo envCasFail 0 [mkTask 7] (initTick [mkTask 7])).assigned =
        (initTick [mkTask 7]).assigned ++ (7, 1) :: l ∧
      (assignLoopGo envCasFail 0 [mkTask 7] (initTick [mkTask 7])).sent =
        (initTick [mkTask 7]).sent ++ mkCreateIndexRequest (mkTask 7) :: l' :=
  C6_cas_failure_still_dispatches envCasFail (mkTask 7) [] 0 (initTick [mkTask 7]) 1
    rfl rfl rfl

/-- C8: the CreateIndex requests dispatched within one tick are issued in
ascending order of Version: every earlier request carries a Version less
than or equal to that of every later request. -/
theorem C8_dispatch_in_ascending_version_order (env : AssignEnv)
    (hasClients : Bool) (live : List Int) (table : List IndexMeta) :
    ((assignTaskTick env hasClients live table).sent).Pairwise
      (fun a b => a.version ≤ b.version) := by
  unfold assignTaskTick
  by_cases hc : hasClients
  · rw [if_pos hc]
    obtain ⟨l, hsub, hsent⟩ := assignLoopGo_sent_sublist env
      (sortByVersion (metaTable.GetUnassignedTasks table live)) 0 (initTick table)
    rw [hsent]
    have hpw : l.Pairwise (fun a b : IndexMeta => a.version ≤ b.version) :=
      (pairwise_sortByVersion _).sublist hsub
    have h0 : (initTick table).sent = [] := rfl
    rw [h0, List.nil_append]
    refine List.Pairwise.map mkCreateIndexRequest ?_ hpw
    intro a b hab
    simpa [mkCreateIndexRequest] using add_le_add_right hab 1
  · rw [if_neg hc]
    simp [initTick]

/-!  Helper lemmas for the recycle loop. -/

theorem mem_deleteIndex (t : List IndexMeta) (id : Int) (m : IndexMeta)
    (h : m ∈ metaTable.DeleteIndex t id) : m ∈ t ∧ m.indexBuildID ≠ id := by
  unfold metaTable.DeleteIndex at h
  rw [List.mem_filter] at h
  refine ⟨h.1, ?_⟩
  simpa using h.2

theorem recycleStep_ids (env : RecycleEnv) (acc : RecycleResult) (meta : IndexMeta) :
    ∀ m ∈ (recycleStep env acc meta).table,
    ∃ m0 ∈ acc.table, m0.indexBuildID = m.indexBuildID := by
  intro m hm
  unfold recycleStep at hm
  by_cases hd : meta.markDeleted
  · simp only [hd, if_true] at hm
    exact ⟨m, (mem_deleteIndex _ _ _ hm).1, rfl⟩
  · simp only [hd, Bool.false_eq_true, if_false] at hm
    unfold metaTable.UpdateRecycleState at hm
    rw [List.mem_map] at hm
    obtain ⟨m0, hm0, he⟩ := hm
    refine ⟨m0, hm0, ?_⟩
    subst he
    by_cases h2 : m0.indexBuildID = meta.indexBuildID <;> simp [h2]

theorem recycleFold_ids (env : RecycleEnv) :
    ∀ (batch : List IndexMeta) (acc : RecycleResult),
    ∀ m ∈ (batch.foldl (recycleStep env) acc).table,
    ∃ m0 ∈ acc.table, m0.indexBuildID = m.indexBuildID := by
  intro batch
  induction batch with
  | nil => intro acc m hm; exact ⟨m, hm, rfl⟩
  | cons b bs ih =>
    intro acc m hm
    rw [List.foldl_cons] at hm
    obtain ⟨m1, hm1, he1⟩ := ih (recycleStep env acc b) m hm
    obtain ⟨m0, hm0, he0⟩ := recycleStep_ids env acc b m1 hm1
    exact ⟨m0, hm0, he0.trans he1⟩

theorem recycleFold_absent (env : RecycleEnv) (id : Int) :
    ∀ (batch : List IndexMeta) (acc : RecycleResult),
    (∀ m ∈ acc.table, m.indexBuildID ≠ id) →
    ∀ m ∈ (batch.foldl (recycleStep env) acc).table, m.indexBuildID ≠ id := by
  intro batch acc h m hm
  obtain ⟨m0, hm0, he⟩ := recycleFold_ids env batch acc m hm
  rw [← he]
  exact h m0 hm0

/-- Counterexample for C4: with a blob store whose RemoveWithPrefix always
fails, the recycle tick still deletes the MarkDeleted record's metadata:
the removal of key 9 fails, yet the table ends up empty instead of
unchanged. -/
theorem C4_counterexample :
    recycleTick blobFailEnv [deletedRec] =
      { table := [], removeCalls := ["9"], failedRemoves := ["9"] } := rfl

/-- C4 (amended): for a MarkDeleted record the blob removal is issued but
its outcome is ignored beyond logging: DeleteIndex removes the record's
metadata unconditionally, even when the blob operation fails; the recycle
tick never introduces records with new ids, so the record set never
grows. -/
theorem C4_markDeleted_metadata_deleted_unconditionally (env : RecycleEnv)
    (table : List IndexMeta) (meta : IndexMeta)
    (hmem : meta ∈ metaTable.GetUnusedIndexFiles table taskLimit)
    (hdel : meta.markDeleted = true) :
    (∀ m ∈ (recycleTick env table).table, m.indexBuildID ≠ meta.indexBuildID) ∧
    (∀ m ∈ (recycleTick env table).table,
      ∃ m0 ∈ table, m0.indexBuildID = m.indexBuildID) := by
  unfold recycleTick
  obtain ⟨s, t, hst⟩ := List.append_of_mem hmem
  constructor
  · rw [hst, List.foldl_append, List.foldl_cons]
    refine recycleFold_absent env _ t _ ?_
    intro m hm
    have hstep : (recycleStep env (List.foldl (recycleStep env)
        { table := table, removeCalls := [], failedRemoves := [] } s) meta).table =
        metaTable.DeleteIndex (List.foldl (recycleStep env)
          { table := table, removeCalls := [], failedRemoves := [] } s).table
          meta.indexBuildID := by
      simp [recycleStep, hdel]
    rw [hstep] at hm
    exact (mem_deleteIndex _ _ _ hm).2
  · intro m hm
    exact recycleFold_ids env _ _ m hm

/-- Witness for C4 (amended): concretely, after the recycle tick on the
dropped record 9 under an always-failing blob store, no record with id 9
remains and no new ids appeared. -/
theorem C4_witness :
    (∀ m ∈ (recycleTick blobFailEnv [deletedRec]).table,
      m.indexBuildID ≠ deletedRec.indexBuildID) ∧
    (∀ m ∈ (recycleTick blobFailEnv [deletedRec]).table,
      ∃ m0 ∈ [deletedRec], m0.indexBuildID = m.indexBuildID) :=
  C4_markDeleted_metadata_deleted_unconditionally blobFailEnv [deletedRec] deletedRec
    (by decide) rfl

/-- C9: for a record with MarkDeleted=false and Version=V, the recycle
step issues removals for exactly the prefixes str(IndexBuildID)/str(j)
with j ranging over 1..V-1 (in particular never the prefix of the current
version V), and afterwards every record of the table carrying that id has
Recycled=true. -/
theorem C9_stale_versions_recycled (env : RecycleEnv) (acc : RecycleResult)
    (meta : IndexMeta) (h : meta.markDeleted = false) :
    (recycleStep env acc meta).removeCalls =
      acc.removeCalls ++ (List.range (meta.version - 1).toNat).map
        (fun j => toString meta.indexBuildID ++ "/" ++ toString (j + 1)) ∧
    (∀ m ∈ (recycleStep env acc meta).table,
      m.indexBuildID = meta.indexBuildID → m.recycled = true) := by
  constructor
  · simp [recycleStep, h, staleVersionKeys]
  · intro m hm heq
    simp only [recycleStep, h, Bool.false_eq_true, if_false] at hm
    unfold metaTable.UpdateRecycleState at hm
    rw [List.mem_map] at hm
    obtain ⟨m0, hm0, he⟩ := hm
    subst he
    by_cases h2 : m0.indexBuildID = meta.indexBuildID
    · simp [h2]
    · rw [if_neg h2] at heq
      exact absurd heq h2

/-- Witness for C9: on the concrete version-3 record with id 5, the
removals issued are exactly for 5/1 and 5/2 and the record ends up
Recycled. -/
theorem C9_witness :
    (recycleStep blobFailEnv staleAcc staleRec).removeCalls =
      staleAcc.removeCalls ++ (List.range (staleRec.version - 1).toNat).map
        (fun j => toString staleRec.indexBuildID ++ "/" ++ toString (j + 1)) ∧
    (∀ m ∈ (recycleStep blobFailEnv staleAcc staleRec).table,
      m.indexBuildID = staleRec.indexBuildID → m.recycled = true) :=
  C9_stale_versions_recycled blobFailEnv staleAcc staleRec rfl

end IndexCoordSpec
